import Mathlib

/-!
# Contract-backed entity synchronization layer: a verification development

Shallow embedding of the read/write coordination layer of the Tribes
client (event controller, tribe controller, post minter, profile
context).  The external ledger is modelled as an environment of fetch
functions; a fetch that would reject at runtime is an `Except.error`,
a successful decoded tuple is `Except.ok`.  Identifiers travel through
the TypeScript code as decimal strings of ledger-assigned counters; the
decimal encoding is injective, so identifiers are modelled by the
underlying natural number.  Free-form metadata travels as a JSON text
field produced by the external JSON.stringify / JSON.parse pair; a blob
is modelled as either the well-formed serialization of a metadata value
or a corrupt string that fails to parse.
-/

deriving instance DecidableEq for Except

namespace Tribes

/-! ## Event domain (eventController) -/

/-- Raw tuple returned by the `events(id)` ledger read:
metadataURI, organizer, maxTickets, ticketsSold, price (wei), active. -/
structure RawEvent where
  metadataURI : String
  organizer : String
  maxTickets : Nat
  ticketsSold : Nat
  price : Nat
  active : Bool
deriving DecidableEq

/-- The event store: fetching slot `i` either yields a decoded raw tuple
or rejects with a transport error. -/
def EventStore : Type := Nat → Except Unit RawEvent

/-- Embedding of `ethers.formatEther`: renders a wei amount as a decimal
ether string with at least one fractional digit and no trailing zeros. -/
def formatEther (wei : Nat) : String :=
  let whole := wei / 10 ^ 18
  let fracDigits := Nat.toDigits 10 (wei % 10 ^ 18)
  let padded := List.replicate (18 - fracDigits.length) '0' ++ fracDigits
  let trimmed := (padded.reverse.dropWhile (fun c => c == '0')).reverse
  toString whole ++ "." ++ String.mk (if trimmed.isEmpty then ['0'] else trimmed)

/-- The `EventImpl` class.  The TypeScript constructor stores the decimal
string of the slot index as `id`; we keep the index itself. -/
structure EventImpl where
  id : Nat
  metadataURI : String
  organizer : String
  maxTickets : Nat
  ticketsSold : Nat
  price : String
  active : Bool
deriving DecidableEq

/-- `new EventImpl(eventId.toString(), data[0], data[1], Number(data[2]),
Number(data[3]), ethers.formatEther(data[4]), data[5])`. -/
def mkEventImpl (eventId : Nat) (raw : RawEvent) : EventImpl :=
  { id := eventId
    metadataURI := raw.metadataURI
    organizer := raw.organizer
    maxTickets := raw.maxTickets
    ticketsSold := raw.ticketsSold
    price := formatEther raw.price
    active := raw.active }

/-- `EventImpl.isValid`: `this.maxTickets > 0`. -/
def EventImpl.isValid (e : EventImpl) : Bool :=
  decide (0 < e.maxTickets)

/-- Shape of the object returned by `EventImpl.toJSON`. -/
structure EventJSON where
  id : Nat
  metadataURI : String
  organizer : String
  maxTickets : Nat
  ticketsSold : Nat
  price : String
  active : Bool
  isValid : Bool
deriving DecidableEq

/-- `EventImpl.toJSON`: copies every field and adds the literal flag
`isValid: true`. -/
def EventImpl.toJSON (e : EventImpl) : EventJSON :=
  { id := e.id
    metadataURI := e.metadataURI
    organizer := e.organizer
    maxTickets := e.maxTickets
    ticketsSold := e.ticketsSold
    price := e.price
    active := e.active
    isValid := true }

/-- `getEvent`: fetch the raw tuple, build an `EventImpl`, and return null
(`none`) when the fetch rejects or the tuple is the sentinel
(`maxTickets == 0`). -/
def getEvent (store : EventStore) (eventId : Nat) : Option EventImpl :=
  match store eventId with
  | .error _ => none
  | .ok raw =>
    let e := mkEventImpl eventId raw
    if e.isValid then some e else none

/-- `eventExists`: `event !== null && event.isValid()`, with any error
caught and turned into `false`. -/
def eventExists (store : EventStore) (eventId : Nat) : Bool :=
  match getEvent store eventId with
  | some e => e.isValid
  | none => false

/-- `getTicketBalance`: returns the fetched balance, or 0 when the fetch
rejects. -/
def getTicketBalance (balance : Except Unit Nat) : Nat :=
  match balance with
  | .ok b => b
  | .error _ => 0

/-- Scanning loop of `getAllEvents`: at each slot, a rejected fetch is
skipped (continue to the next index), a sentinel tuple stops the scan,
and a valid tuple is appended.  `fuel` is the number of indices left
before `maxEvents` is reached. -/
def getAllEventsAux (store : EventStore) : Nat → Nat → List EventImpl
  | 0, _ => []
  | fuel + 1, eventId =>
    match store eventId with
    | .error _ => getAllEventsAux store fuel (eventId + 1)
    | .ok raw =>
      let e := mkEventImpl eventId raw
      if e.isValid then e :: getAllEventsAux store fuel (eventId + 1)
      else []

/-- `getAllEvents`: scan slots 0, 1, ... while `eventId < maxEvents`,
stopping at the first sentinel and skipping transport errors. -/
def getAllEvents (store : EventStore) (maxEvents : Nat) : List EventImpl :=
  getAllEventsAux store maxEvents 0

/-- `getUserEvents`: filter `getAllEvents` by organizer address,
case-insensitively. -/
def getUserEvents (store : EventStore) (userAddress : String) (maxEvents : Nat) :
    List EventImpl :=
  (getAllEvents store maxEvents).filter
    (fun e => e.organizer.toLower == userAddress.toLower)

/-- A receipt log after `abi.parseLog`: the event name and its positional
arguments.  `none` stands for a log that failed to parse (or parsed to
null) and is skipped by the loop. -/
structure ParsedLog where
  name : String
  args : List Nat
deriving DecidableEq

/-- Identifier-extraction loop of `createEvent`: walk the receipt logs in
order, skip unparsable entries, and return the first positional argument
of the first log named EventCreated; if none matches, fall back to the
placeholder 0. -/
def createEventIdFromLogs : List (Option ParsedLog) → Nat
  | [] => 0
  | none :: rest => createEventIdFromLogs rest
  | some pl :: rest =>
    if pl.name = "EventCreated" then pl.args.headD 0
    else createEventIdFromLogs rest

/-! ### Concrete stores used as witnesses -/

/-- A valid raw tuple for slot `i`. -/
def demoRaw (i : Nat) : RawEvent :=
  { metadataURI := toString i
    organizer := "0xOrg"
    maxTickets := 100
    ticketsSold := i
    price := 0
    active := true }

/-- The well-formed sentinel tuple for an empty slot. -/
def sentinelRaw : RawEvent :=
  { metadataURI := ""
    organizer := ""
    maxTickets := 0
    ticketsSold := 0
    price := 0
    active := false }

/-- Store with valid events at slots 0, 1, 2 and the sentinel at slot 3. -/
def demoStore : EventStore := fun i =>
  if i < 3 then .ok (demoRaw i)
  else if i = 3 then .ok sentinelRaw
  else .error ()

/-- Same store but with a transport error injected at slot 1. -/
def errAtOneStore : EventStore := fun i =>
  if i = 1 then .error ()
  else if i < 3 then .ok (demoRaw i)
  else if i = 3 then .ok sentinelRaw
  else .error ()

/-- A receipt whose logs contain no EventCreated entry. -/
def noCreationLogs : List (Option ParsedLog) :=
  [none, some { name := "Transfer", args := [5] }]

/-- A receipt holding two parsed events where only the second one is the
creation event. -/
def twoEventLogs : List (Option ParsedLog) :=
  [some { name := "TicketPurchased", args := [7, 2] },
   some { name := "EventCreated", args := [42] }]

/-! ## Metadata blobs

Free-form metadata travels as one JSON text field written by
`JSON.stringify` and read back by `JSON.parse`, both external builtins.
A blob is therefore either the well-formed serialization of a metadata
value (stringify of `m`, which parses back to `m`) or a corrupt string
on which `JSON.parse` throws. -/

inductive Blob (α : Type) where
  | wellFormed : α → Blob α
  | corrupt : String → Blob α
deriving DecidableEq

/-- `JSON.parse` on a blob: the serialized value, or a thrown error. -/
def Blob.parse {α : Type} : Blob α → Option α
  | .wellFormed m => some m
  | .corrupt _ => none

/-! ## Tribe domain (tribeController) -/

/-- Metadata object written by `createTribe`:
`JSON.stringify(... description, createdAt ...)`. -/
structure TribeMetadata where
  description : String
  createdAt : Nat
deriving DecidableEq

/-- Raw tuple returned by the `getTribeDetails` ledger read. -/
structure RawTribe where
  name : String
  metadata : Blob TribeMetadata
  joinType : Nat
  entryFee : Nat
  memberCount : Nat
  canMerge : Bool
  admin : String
  isActive : Bool
deriving DecidableEq

/-- The client-side `Tribe` record built by `getTribeDetails`. -/
structure Tribe where
  id : Nat
  name : String
  description : String
  joinType : Nat
  entryFee : Nat
  memberCount : Nat
  canMerge : Bool
  admin : String
  isActive : Bool
deriving DecidableEq

/-- Ledger boundary used by the tribe reads: the `nextTribeId` counter
fetch and the per-id details fetch, each able to reject. -/
structure TribeEnv where
  nextTribeId : Except Unit Nat
  tribeDetails : Nat → Except Unit RawTribe

/-- Description extraction of `getTribeDetails`:
`JSON.parse(details.metadata).description`, with a parse failure
degrading to the empty string. -/
def tribeDescription (blob : Blob TribeMetadata) : String :=
  match blob with
  | .wellFormed m => m.description
  | .corrupt _ => ""

/-- `getNextTribeId`: returns the fetched counter and re-throws a fetch
error. -/
def getNextTribeId (env : TribeEnv) : Except Unit Nat :=
  env.nextTribeId

/-- `getTribeDetails`: builds the `Tribe` record, returning null
(`none`) instead of throwing when the fetch rejects. -/
def getTribeDetails (env : TribeEnv) (tribeId : Nat) : Option Tribe :=
  match env.tribeDetails tribeId with
  | .error _ => none
  | .ok d =>
    some { id := tribeId
           name := d.name
           description := tribeDescription d.metadata
           joinType := d.joinType
           entryFee := d.entryFee
           memberCount := d.memberCount
           canMerge := d.canMerge
           admin := d.admin
           isActive := d.isActive }

/-- `getAllTribes`: reads the counter (re-throwing its transport error),
fetches details for ids `0 .. nextTribeId - 1`, and keeps the non-null
results. -/
def getAllTribes (env : TribeEnv) : Except Unit (List Tribe) :=
  match getNextTribeId env with
  | .error e => .error e
  | .ok n => .ok ((List.range n).filterMap (getTribeDetails env))

/-! ## Post domain (postMinter) -/

/-- The post kind tag: TEXT, IMAGE or EVENT. -/
inductive PostType where
  | text
  | image
  | event
deriving DecidableEq

/-- Decoded post metadata.  The TypeScript `createdAt` is an ISO-8601
string compared through `new Date(s).getTime()`; it is modelled by that
time value. -/
structure PostMetadata where
  title : String
  content : String
  type : PostType
  createdAt : Nat
  imageUrl : Option String
deriving DecidableEq

/-- Raw tuple returned by the `getPost(id)` ledger read. -/
structure RawPost where
  creator : String
  tribeId : Nat
  metadata : Blob PostMetadata
  isGated : Bool
  collectibleContract : String
  collectibleId : Nat
  isEncrypted : Bool
  accessSigner : String
deriving DecidableEq

/-- The client-side `Post` record built by `getPost` (the derived
`likes` and `replies` fields are never set on this path). -/
structure Post where
  id : Nat
  creator : String
  tribeId : Nat
  metadata : PostMetadata
  isGated : Bool
  collectibleContract : String
  collectibleId : Nat
  isEncrypted : Bool
  accessSigner : String
deriving DecidableEq

/-- Ledger boundary used by the post reads: the per-tribe id listing
(`getPostsByTribe(tribeId, offset, limit)`, yielding post ids and a
total) and the per-post fetch, each able to reject; `now` is the session
clock used for placeholder timestamps. -/
structure PostEnv where
  now : Nat
  tribePosts : Nat → Nat → Nat → Except Unit (List Nat × Nat)
  posts : Nat → Except Unit RawPost

/-- The metadata object serialized by `createTextPost`. -/
def createTextPostMetadata (title content : String) (now : Nat) : PostMetadata :=
  { title := title
    content := content
    type := PostType.text
    createdAt := now
    imageUrl := none }

/-- The blob `createTextPost` writes: `JSON.stringify` of its metadata
object. -/
def createTextPost (title content : String) (now : Nat) : Blob PostMetadata :=
  Blob.wellFormed (createTextPostMetadata title content now)

/-- Metadata decoding of `getPost`: `JSON.parse` of the stored blob, with
a parse failure degrading to the placeholder entity. -/
def parsePostMetadata (blob : Blob PostMetadata) (now : Nat) : PostMetadata :=
  match blob with
  | .wellFormed m => m
  | .corrupt _ =>
    { title := "Error"
      content := "Could not parse post metadata"
      type := PostType.text
      createdAt := now
      imageUrl := none }

/-- The `Post` record `getPost` assembles from a fetched raw tuple. -/
def reconcilePost (postId : Nat) (d : RawPost) (now : Nat) : Post :=
  { id := postId
    creator := d.creator
    tribeId := d.tribeId
    metadata := parsePostMetadata d.metadata now
    isGated := d.isGated
    collectibleContract := d.collectibleContract
    collectibleId := d.collectibleId
    isEncrypted := d.isEncrypted
    accessSigner := d.accessSigner }

/-- `getPost`: fetches the raw tuple and builds the record; a fetch
rejection is logged and re-thrown. -/
def getPost (env : PostEnv) (postId : Nat) : Except Unit Post :=
  match env.posts postId with
  | .error e => .error e
  | .ok d => .ok (reconcilePost postId d env.now)

/-- `getPostsByTribe`: returns the fetched id page and re-throws a fetch
error. -/
def getPostsByTribe (env : PostEnv) (tribeId offset limit : Nat) :
    Except Unit (List Nat × Nat) :=
  env.tribePosts tribeId offset limit

/-- Id-gathering loop of `getAllPosts`: one `getPostsByTribe(t, 0, limit)`
call per tribe, a failing tribe caught and contributing no ids, ids
appended in tribe order. -/
def collectPostIds (env : PostEnv) (tribeIds : List Nat) (limit : Nat) : List Nat :=
  tribeIds.foldl
    (fun acc t =>
      match getPostsByTribe env t 0 limit with
      | .error _ => acc
      | .ok r => acc ++ r.1)
    []

/-- The sort comparator of `getAllPosts`: `a` comes before `b` when
`new Date(b.createdAt).getTime() - new Date(a.createdAt).getTime()` is
non-positive, i.e. newest first. -/
def postTimeDesc (a b : Post) : Bool :=
  decide (b.metadata.createdAt ≤ a.metadata.createdAt)

/-- `getAllPosts`: gather ids per tribe (isolating per-tribe failures),
fetch every post with one `Promise.all` (so any single `getPost`
rejection rejects the whole call, and the outer catch re-throws it),
then sort newest first. -/
def getAllPosts (env : PostEnv) (tribeIds : List Nat) (limit : Nat) :
    Except Unit (List Post) :=
  match (collectPostIds env tribeIds limit).mapM (getPost env) with
  | .error e => .error e
  | .ok posts => .ok (posts.mergeSort postTimeDesc)

/-! ## Profile domain (ProfileContext) -/

/-- Decoded profile metadata (social links elided). -/
structure ProfileMetadata where
  name : String
  bio : Option String
  avatar : Option String
deriving DecidableEq

/-- The `ProfileData` record returned by `getProfileByAddress`. -/
structure ProfileData where
  tokenId : Nat
  username : String
  metadata : ProfileMetadata
  owner : String
deriving DecidableEq

/-- Ledger boundary used by `getProfileByAddress`: NFT balance lookup,
per-token owner lookup (rejecting for nonexistent tokens) and the
profile fetch by token id. -/
structure ProfileEnv where
  balanceOf : String → Except Unit Nat
  ownerOf : Nat → Except Unit String
  profileByTokenId : Nat → Except Unit (String × Blob ProfileMetadata)

/-- `parseMetadata` of the profile context: a parse failure degrades to
the placeholder with name Unknown. -/
def parseProfileMetadata (blob : Blob ProfileMetadata) : ProfileMetadata :=
  match blob with
  | .wellFormed m => m
  | .corrupt _ => { name := "Unknown", bio := none, avatar := none }

/-- One iteration of the token-ownership probe: true when `ownerOf(i)`
succeeds and matches the address case-insensitively; a rejection is
caught and treated as no match. -/
def ownerMatches (env : ProfileEnv) (address : String) (i : Nat) : Bool :=
  match env.ownerOf i with
  | .ok owner => owner.toLower == address.toLower
  | .error _ => false

/-- `getProfileByAddress`: zero balance reads as no profile; otherwise
the token id is searched by probing ownership of token ids 0 through 9
only, and a profile is assembled from the first match; any other failure
is caught and read as null. -/
def getProfileByAddress (env : ProfileEnv) (address : String) : Option ProfileData :=
  match env.balanceOf address with
  | .error _ => none
  | .ok balance =>
    if balance = 0 then none
    else
      match (List.range 10).find? (ownerMatches env address) with
      | none => none
      | some tokenId =>
        match env.profileByTokenId tokenId with
        | .error _ => none
        | .ok r =>
          some { tokenId := tokenId
                 username := r.1
                 metadata := parseProfileMetadata r.2
                 owner := address }

/-! ## Concrete environments used as witnesses and counterexamples -/

/-- Store whose every fetch rejects. -/
def allErrStore : EventStore := fun _ => .error ()

/-- Tribe environment whose every fetch rejects. -/
def failTribeEnv : TribeEnv :=
  { nextTribeId := .error ()
    tribeDetails := fun _ => .error () }

/-- A raw post of tribe `t` created at time `10 * i`. -/
def demoRawPost (i : Nat) (t : Nat) : RawPost :=
  { creator := "0xCreator"
    tribeId := t
    metadata := Blob.wellFormed
      { title := toString i
        content := "body"
        type := PostType.text
        createdAt := 10 * i
        imageUrl := none }
    isGated := false
    collectibleContract := "0x0000000000000000000000000000000000000000"
    collectibleId := 0
    isEncrypted := false
    accessSigner := "0x0000000000000000000000000000000000000000" }

/-- Post environment: tribe 0 lists posts 0 and 1, tribe 1 rejects,
tribe 2 lists post 2; every per-post fetch succeeds. -/
def demoPostEnv : PostEnv :=
  { now := 999
    tribePosts := fun t _ _ =>
      if t = 0 then .ok ([0, 1], 2)
      else if t = 2 then .ok ([2], 1)
      else .error ()
    posts := fun i =>
      if i ≤ 2 then .ok (demoRawPost i (if i ≤ 1 then 0 else 2))
      else .error () }

/-- The `Post` record `getPost` produces for id `i` in `demoPostEnv`. -/
def demoPostView (i : Nat) : Post :=
  reconcilePost i (demoRawPost i (if i ≤ 1 then 0 else 2)) 999

/-- Post environment whose every fetch rejects. -/
def failPostEnv : PostEnv :=
  { now := 0
    tribePosts := fun _ _ _ => .error ()
    posts := fun _ => .error () }

/-- Post environment where tribe 0 lists posts 0 and 1 but the fetch of
post 1 rejects. -/
def badPostEnv : PostEnv :=
  { now := 0
    tribePosts := fun t _ _ => if t = 0 then .ok ([0, 1], 2) else .error ()
    posts := fun i => if i = 0 then .ok (demoRawPost 0 0) else .error () }

/-- A raw post whose metadata blob is the `createTextPost` serialization. -/
def rtGoodRaw : RawPost :=
  { creator := "0xA"
    tribeId := 7
    metadata := createTextPost "Hello" "World" 1000
    isGated := false
    collectibleContract := "0x0"
    collectibleId := 0
    isEncrypted := false
    accessSigner := "0x0" }

/-- A raw post whose metadata blob is corrupt. -/
def rtBadRaw : RawPost :=
  { creator := "0xB"
    tribeId := 7
    metadata := Blob.corrupt "not json"
    isGated := false
    collectibleContract := "0x0"
    collectibleId := 0
    isEncrypted := false
    accessSigner := "0x0" }

/-- Post environment holding a round-trip blob at id 0 and a corrupt
blob at id 1. -/
def roundtripPostEnv : PostEnv :=
  { now := 42
    tribePosts := fun _ _ _ => .error ()
    posts := fun i =>
      if i = 0 then .ok rtGoodRaw
      else if i = 1 then .ok rtBadRaw
      else .error () }

/-- Profile environment where the address owns exactly the profile NFT
with token id 12: the balance is positive but every probed token id
0 through 9 rejects. -/
def demoProfileEnv : ProfileEnv :=
  { balanceOf := fun _ => .ok 1
    ownerOf := fun i => if i = 12 then .ok "0xabc" else .error ()
    profileByTokenId := fun _ =>
      .ok ("alice", Blob.wellFormed { name := "Alice", bio := none, avatar := none }) }

/-! ### Scanning lemmas -/

theorem getAllEventsAux_step_error (store : EventStore) (f s : Nat)
    (hst : store s = Except.error ()) :
    getAllEventsAux store (f + 1) s = getAllEventsAux store f (s + 1) := by
  simp [getAllEventsAux, hst]

theorem getAllEventsAux_step_valid (store : EventStore) (f s : Nat) (raw : RawEvent)
    (hst : store s = Except.ok raw) (hmt : 0 < raw.maxTickets) :
    getAllEventsAux store (f + 1) s =
      mkEventImpl s raw :: getAllEventsAux store f (s + 1) := by
  simp [getAllEventsAux, hst, EventImpl.isValid, mkEventImpl, hmt]

theorem getAllEventsAux_step_sentinel (store : EventStore) (f s : Nat) (raw : RawEvent)
    (hst : store s = Except.ok raw) (hmt : raw.maxTickets = 0) :
    getAllEventsAux store (f + 1) s = [] := by
  simp [getAllEventsAux, hst, EventImpl.isValid, mkEventImpl, hmt]

/-- Over a prefix of `j` slots none of which holds the sentinel, the scan
collects exactly the successful fetches of those slots (in index order)
and then continues from slot `s + j` with the remaining fuel. -/
theorem getAllEventsAux_split (store : EventStore) :
    ∀ (j s fuel : Nat), j ≤ fuel →
      (∀ i, i < j → ∀ raw, store (s + i) = Except.ok raw → 0 < raw.maxTickets) →
      getAllEventsAux store fuel s =
        ((List.range j).filterMap (fun i => getEvent store (s + i))) ++
          getAllEventsAux store (fuel - j) (s + j) := by
  intro j
  induction j with
  | zero => intro s fuel _ _; simp
  | succ j ih =>
    intro s fuel hj hok
    obtain ⟨f, rfl⟩ : ∃ f, fuel = f + 1 := ⟨fuel - 1, by omega⟩
    have htail : ((List.range j).map Nat.succ).filterMap (fun i => getEvent store (s + i)) =
        (List.range j).filterMap (fun i => getEvent store (s + 1 + i)) := by
      rw [List.filterMap_map]
      apply List.filterMap_congr
      intro i _
      show getEvent store (s + (i + 1)) = getEvent store (s + 1 + i)
      rw [show s + (i + 1) = s + 1 + i by omega]
    have hok1 : ∀ i, i < j → ∀ raw, store (s + 1 + i) = Except.ok raw → 0 < raw.maxTickets := by
      intro i hi raw hraw
      exact hok (i + 1) (by omega) raw (by rw [show s + (i + 1) = s + 1 + i by omega]; exact hraw)
    have hrest : getAllEventsAux store (f - j) (s + 1 + j) =
        getAllEventsAux store (f + 1 - (j + 1)) (s + (j + 1)) := by
      rw [show f + 1 - (j + 1) = f - j by omega, show s + (j + 1) = s + 1 + j by omega]
    cases hst : store s with
    | error e =>
      cases e
      have hhead : getEvent store (s + 0) = none := by
        simp [getEvent, hst]
      rw [getAllEventsAux_step_error store f s hst,
        ih (s + 1) f (by omega) hok1, List.range_succ_eq_map,
        List.filterMap_cons, hhead, htail, hrest]
    | ok raw =>
      have hmt : 0 < raw.maxTickets := hok 0 (by omega) raw (by simpa using hst)
      have hhead : getEvent store (s + 0) = some (mkEventImpl s raw) := by
        simp [getEvent, hst, EventImpl.isValid, mkEventImpl, hmt]
      rw [getAllEventsAux_step_valid store f s raw hst hmt,
        ih (s + 1) f (by omega) hok1, List.range_succ_eq_map,
        List.filterMap_cons, hhead, htail, hrest]
      simp

/-- Every entity the scan returns comes from a successful, non-sentinel
fetch of a slot inside the scanned window. -/
theorem mem_getAllEventsAux (store : EventStore) :
    ∀ (fuel s : Nat) (e : EventImpl), e ∈ getAllEventsAux store fuel s →
      ∃ i raw, s ≤ i ∧ i < s + fuel ∧ store i = Except.ok raw ∧
        0 < raw.maxTickets ∧ e = mkEventImpl i raw := by
  intro fuel
  induction fuel with
  | zero => intro s e h; simp [getAllEventsAux] at h
  | succ f ih =>
    intro s e h
    cases hst : store s with
    | error err =>
      cases err
      rw [getAllEventsAux_step_error store f s hst] at h
      obtain ⟨i, raw, h1, h2, h3, h4, h5⟩ := ih (s + 1) e h
      exact ⟨i, raw, by omega, by omega, h3, h4, h5⟩
    | ok raw =>
      by_cases hmt : 0 < raw.maxTickets
      · rw [getAllEventsAux_step_valid store f s raw hst hmt] at h
        rcases List.mem_cons.mp h with h | h
        · exact ⟨s, raw, by omega, by omega, hst, hmt, h⟩
        · obtain ⟨i, raw2, h1, h2, h3, h4, h5⟩ := ih (s + 1) e h
          exact ⟨i, raw2, by omega, by omega, h3, h4, h5⟩
      · rw [getAllEventsAux_step_sentinel store f s raw hst (by omega)] at h
        simp at h

/-- A `filterMap` whose function hits on every element is a `map`. -/
theorem filterMap_eq_map_of_forall {α β : Type} (l : List α) (f : α → Option β)
    (g : α → β) (h : ∀ a ∈ l, f a = some (g a)) : l.filterMap f = l.map g := by
  induction l with
  | nil => rfl
  | cons a t ih =>
    rw [List.filterMap_cons, h a (List.mem_cons_self a t), List.map_cons,
      ih (fun b hb => h b (List.mem_cons_of_mem a hb))]

/-! ### Claim theorems for the event domain -/

/-- C1: if slots `0 .. n-1` reconcile as valid events and slot `n`, with
`n < maxEvents`, reconciles as the sentinel (`maxTickets == 0`), then
`getAllEvents` returns exactly those `n` events in ascending index order,
stopping at the first sentinel. -/
theorem getAllEvents_stops_at_sentinel (store : EventStore) (raws : Nat → RawEvent)
    (n maxEvents : Nat) (sraw : RawEvent)
    (hval : ∀ i, i < n → store i = Except.ok (raws i))
    (hmt : ∀ i, i < n → 0 < (raws i).maxTickets)
    (hn : n < maxEvents)
    (hs : store n = Except.ok sraw) (hs0 : sraw.maxTickets = 0) :
    getAllEvents store maxEvents =
      (List.range n).map (fun i => mkEventImpl i (raws i)) := by
  unfold getAllEvents
  have hok : ∀ i, i < n → ∀ raw, store (0 + i) = Except.ok raw → 0 < raw.maxTickets := by
    intro i hi raw hraw
    rw [Nat.zero_add] at hraw
    rw [hval i hi] at hraw
    injection hraw with h
    rw [← h]
    exact hmt i hi
  rw [getAllEventsAux_split store n 0 maxEvents (by omega) hok]
  have hzero : getAllEventsAux store (maxEvents - n) (0 + n) = [] := by
    obtain ⟨f, hf⟩ : ∃ f, maxEvents - n = f + 1 := ⟨maxEvents - n - 1, by omega⟩
    rw [Nat.zero_add, hf]
    exact getAllEventsAux_step_sentinel store f n sraw hs hs0
  rw [hzero, List.append_nil]
  apply filterMap_eq_map_of_forall
  intro i hi
  have hi2 : i < n := List.mem_range.mp hi
  simp [getEvent, Nat.zero_add, hval i hi2, EventImpl.isValid, mkEventImpl, hmt i hi2]

/-- Witness for C1: the store with valid slots 0, 1, 2 and the sentinel at
slot 3 enumerates to exactly those three events with `maxEvents = 20`. -/
theorem getAllEvents_stops_at_sentinel_witness :
    getAllEvents demoStore 20 =
      [mkEventImpl 0 (demoRaw 0), mkEventImpl 1 (demoRaw 1), mkEventImpl 2 (demoRaw 2)] := by
  have h := getAllEvents_stops_at_sentinel demoStore demoRaw 3 20 sentinelRaw
    (by decide) (by decide) (by decide) (by decide) (by decide)
  rw [h]
  rfl

/-- C2: a transport error at slot `k`, with valid events at every other
slot up to `k + 1`, does not terminate the scan: the event at `k + 1` is
in the result and no event of slot `k` is. -/
theorem getAllEvents_skips_transport_error (store : EventStore) (raws : Nat → RawEvent)
    (k maxEvents : Nat)
    (hval : ∀ i, i ≤ k + 1 → i ≠ k → store i = Except.ok (raws i))
    (hmt : ∀ i, i ≤ k + 1 → i ≠ k → 0 < (raws i).maxTickets)
    (herr : store k = Except.error ())
    (hlt : k + 1 < maxEvents) :
    mkEventImpl (k + 1) (raws (k + 1)) ∈ getAllEvents store maxEvents ∧
      ∀ raw, mkEventImpl k raw ∉ getAllEvents store maxEvents := by
  constructor
  · unfold getAllEvents
    have hok : ∀ i, i < k + 2 → ∀ raw, store (0 + i) = Except.ok raw → 0 < raw.maxTickets := by
      intro i hi raw hraw
      rw [Nat.zero_add] at hraw
      by_cases hik : i = k
      · subst hik
        rw [herr] at hraw
        exact absurd hraw (by simp)
      · rw [hval i (by omega) hik] at hraw
        injection hraw with h
        rw [← h]
        exact hmt i (by omega) hik
    rw [getAllEventsAux_split store (k + 2) 0 maxEvents (by omega) hok]
    apply List.mem_append_left
    apply List.mem_filterMap.mpr
    refine ⟨k + 1, List.mem_range.mpr (by omega), ?_⟩
    rw [Nat.zero_add]
    simp [getEvent, hval (k + 1) (by omega) (by omega), EventImpl.isValid, mkEventImpl,
      hmt (k + 1) (by omega) (by omega)]
  · intro raw hmem
    obtain ⟨i, raw2, _, _, hst, _, heq⟩ := mem_getAllEventsAux store maxEvents 0 _ hmem
    have hik : k = i := by
      have := congrArg EventImpl.id heq
      simpa [mkEventImpl] using this
    rw [← hik] at hst
    rw [herr] at hst
    exact absurd hst (by simp)

/-- Witness for C2: with valid slots 0 and 2, a transport error at slot 1
and the sentinel at slot 3, the scan yields exactly the events of slots 0
and 2: slot 1 is skipped and enumeration continues. -/
theorem getAllEvents_skips_transport_error_witness :
    mkEventImpl 2 (demoRaw 2) ∈ getAllEvents errAtOneStore 20 ∧
      mkEventImpl 1 (demoRaw 1) ∉ getAllEvents errAtOneStore 20 ∧
      getAllEvents errAtOneStore 20 = [mkEventImpl 0 (demoRaw 0), mkEventImpl 2 (demoRaw 2)] := by
  have h := getAllEvents_skips_transport_error errAtOneStore demoRaw 1 20
    (by decide) (by decide) (by decide) (by decide)
  exact ⟨h.1, h.2 (demoRaw 1), by decide⟩

/-- C3 (code bug): on a confirmed receipt with no EventCreated log,
`createEvent` falls back to the placeholder 0: an identifier that is
indistinguishable from the legitimate event id 0 (which exists in the
demo store). -/
theorem createEvent_fabricates_zero_id :
    createEventIdFromLogs noCreationLogs = 0 ∧ eventExists demoStore 0 = true := by
  decide

/-- C4 (amended): `isValid`, `getEvent` and `eventExists` apply the
sentinel convention `maxTickets == 0` identically, on both successful
fetches and transport errors; the serialized view `toJSON`, however,
hardcodes its validity flag to `true`, so it agrees with `isValid` only
on valid events. -/
theorem sentinel_convention_readers (store : EventStore) (i : Nat) :
    (∀ raw, store i = Except.ok raw →
      (((mkEventImpl i raw).isValid = true) ↔ 0 < raw.maxTickets) ∧
      (getEvent store i = none ↔ raw.maxTickets = 0) ∧
      ((eventExists store i = true) ↔ 0 < raw.maxTickets)) ∧
    (store i = Except.error () →
      getEvent store i = none ∧ eventExists store i = false) ∧
    (∀ e : EventImpl, e.toJSON.isValid = true) := by
  refine ⟨?_, ?_, fun e => rfl⟩
  · intro raw hst
    by_cases hmt : 0 < raw.maxTickets
    · refine ⟨by simp [EventImpl.isValid, mkEventImpl], ?_, ?_⟩
      · simp [getEvent, hst, EventImpl.isValid, mkEventImpl, hmt]
        omega
      · simp [eventExists, getEvent, hst, EventImpl.isValid, mkEventImpl, hmt]
    · have h0 : raw.maxTickets = 0 := by omega
      refine ⟨by simp [EventImpl.isValid, mkEventImpl], ?_, ?_⟩
      · simp [getEvent, hst, EventImpl.isValid, mkEventImpl, h0]
      · simp [eventExists, getEvent, hst, EventImpl.isValid, mkEventImpl, h0]
  · intro hst
    exact ⟨by simp [getEvent, hst], by simp [eventExists, getEvent, hst]⟩

/-- Witness for C4 (amended), on the demo store: the sentinel at slot 3
reads as null, the valid slot 0 exists, the unreachable slot 5 reads as
null and non-existent, and `toJSON` of the sentinel event still reports
`isValid: true`. -/
theorem sentinel_convention_readers_witness :
    getEvent demoStore 3 = none ∧ eventExists demoStore 0 = true ∧
      getEvent demoStore 5 = none ∧ eventExists demoStore 5 = false ∧
      (mkEventImpl 3 sentinelRaw).toJSON.isValid = true := by
  have h3 := sentinel_convention_readers demoStore 3
  have h0 := sentinel_convention_readers demoStore 0
  have h5 := sentinel_convention_readers demoStore 5
  exact ⟨(h3.1 sentinelRaw (by decide)).2.1.mpr (by decide),
    (h0.1 (demoRaw 0) (by decide)).2.2.mpr (by decide),
    (h5.2.1 (by decide)).1,
    (h5.2.1 (by decide)).2,
    h3.2.2 (mkEventImpl 3 sentinelRaw)⟩

/-- C4 counterexample: on the sentinel tuple, `isValid()` reports false
while `toJSON()` reports validity true — the two readers diverge. -/
theorem toJSON_validity_divergence :
    (mkEventImpl 3 sentinelRaw).isValid = false ∧
      (mkEventImpl 3 sentinelRaw).toJSON.isValid = true := by
  decide

/-- C7: the extraction loop selects the creation event by name, not by
position: with any prefix of unparsable logs or logs of other names, the
first log named EventCreated supplies the identifier through its first
positional argument. -/
theorem createEventId_selects_by_name (pre post : List (Option ParsedLog))
    (pl : ParsedLog) (eid : Nat) (rest : List Nat)
    (hpre : ∀ po ∈ pre, ∀ q : ParsedLog, po = some q → q.name ≠ "EventCreated")
    (hname : pl.name = "EventCreated")
    (hargs : pl.args = eid :: rest) :
    createEventIdFromLogs (pre ++ some pl :: post) = eid := by
  induction pre with
  | nil => simp [createEventIdFromLogs, hname, hargs]
  | cons po t ih =>
    have ht : ∀ po2 ∈ t, ∀ q : ParsedLog, po2 = some q → q.name ≠ "EventCreated" :=
      fun po2 h2 => hpre po2 (List.mem_cons_of_mem po h2)
    cases po with
    | none => simpa [createEventIdFromLogs] using ih ht
    | some q =>
      have hq : q.name ≠ "EventCreated" := hpre (some q) (List.mem_cons_self _ _) q rfl
      simpa [createEventIdFromLogs, hq] using ih ht

/-- Witness for C7: a receipt with two events where only the second is
named EventCreated yields that second event's identifier, 42. -/
theorem createEventId_selects_by_name_witness :
    createEventIdFromLogs twoEventLogs = 42 := by
  have h := createEventId_selects_by_name
    [some { name := "TicketPurchased", args := [7, 2] }] []
    { name := "EventCreated", args := [42] } 42 []
    (by
      intro po hpo q hq
      rw [List.mem_singleton] at hpo
      subst hpo
      injection hq with h2
      subst h2
      decide)
    rfl rfl
  simpa [twoEventLogs] using h

/-! ### Lemmas for the composition layer -/

theorem getAllEventsAux_all_error (store : EventStore)
    (h : ∀ i, store i = Except.error ()) :
    ∀ fuel s, getAllEventsAux store fuel s = [] := by
  intro fuel
  induction fuel with
  | zero => intro s; rfl
  | succ f ih =>
    intro s
    rw [getAllEventsAux_step_error store f s (h s)]
    exact ih (s + 1)

/-- `mapM` over `Except` succeeds pointwise when every element maps to a
success. -/
theorem mapM_ok_of_forall {α β : Type} (l : List α) (f : α → Except Unit β)
    (g : α → β) (h : ∀ x ∈ l, f x = Except.ok (g x)) :
    l.mapM f = Except.ok (l.map g) := by
  induction l with
  | nil => rfl
  | cons a t ih =>
    rw [List.mapM_cons, h a (List.mem_cons_self a t),
      ih (fun b hb => h b (List.mem_cons_of_mem a hb))]
    rfl

/-- `mapM` over `Except` rejects as soon as any element rejects. -/
theorem mapM_error_of_mem {α β : Type} (l : List α) (f : α → Except Unit β)
    (x : α) (hx : x ∈ l) (hf : f x = Except.error ()) :
    l.mapM f = Except.error () := by
  induction l with
  | nil => cases hx
  | cons a t ih =>
    rw [List.mapM_cons]
    rcases List.mem_cons.mp hx with h | h
    · subst h
      rw [hf]
      rfl
    · cases hfa : f a with
      | error e =>
        cases e
        rfl
      | ok b =>
        rw [ih h]
        rfl

/-! ### Claim theorems for the composition, tribe and profile layers -/

/-- C5: when the id listing of one tribe fails while the other two
succeed and every listed post is fetchable, `getAllPosts` returns
(without any exception escaping) the union of the two succeeding tribes'
posts, as a permutation of that union sorted newest-first by
`metadata.createdAt`. -/
theorem getAllPosts_isolates_parent_failure (env : PostEnv) (t1 t2 t3 limit : Nat)
    (ids1 ids3 : List Nat) (tot1 tot3 : Nat) (P : Nat → Post)
    (h1 : env.tribePosts t1 0 limit = Except.ok (ids1, tot1))
    (h2 : env.tribePosts t2 0 limit = Except.error ())
    (h3 : env.tribePosts t3 0 limit = Except.ok (ids3, tot3))
    (hp : ∀ i ∈ ids1 ++ ids3, getPost env i = Except.ok (P i)) :
    getAllPosts env [t1, t2, t3] limit =
        Except.ok (((ids1 ++ ids3).map P).mergeSort postTimeDesc) ∧
      List.Perm (((ids1 ++ ids3).map P).mergeSort postTimeDesc)
        ((ids1 ++ ids3).map P) ∧
      List.Pairwise (fun a b => postTimeDesc a b = true)
        (((ids1 ++ ids3).map P).mergeSort postTimeDesc) := by
  have hids : collectPostIds env [t1, t2, t3] limit = ids1 ++ ids3 := by
    simp [collectPostIds, getPostsByTribe, h1, h2, h3]
  refine ⟨?_, List.mergeSort_perm _ _, ?_⟩
  · simp only [getAllPosts]
    rw [hids, mapM_ok_of_forall _ _ P hp]
  · have htrans : ∀ a b c : Post, postTimeDesc a b → postTimeDesc b c → postTimeDesc a c := by
      intro a b c hab hbc
      simp [postTimeDesc] at hab hbc ⊢
      omega
    have htotal : ∀ a b : Post, postTimeDesc a b || postTimeDesc b a := by
      intro a b
      simp [postTimeDesc]
      omega
    exact List.sorted_mergeSort htrans htotal ((ids1 ++ ids3).map P)

/-- Witness for C5: tribe 1's listing fails while tribes 0 and 2
succeed; the result is the union of their posts, sorted newest first. -/
theorem getAllPosts_isolates_parent_failure_witness :
    getAllPosts demoPostEnv [0, 1, 2] 10 =
        Except.ok ((([0, 1] ++ [2]).map demoPostView).mergeSort postTimeDesc) ∧
      List.Perm ((([0, 1] ++ [2]).map demoPostView).mergeSort postTimeDesc)
        (([0, 1] ++ [2]).map demoPostView) ∧
      List.Pairwise (fun a b => postTimeDesc a b = true)
        ((([0, 1] ++ [2]).map demoPostView).mergeSort postTimeDesc) :=
  getAllPosts_isolates_parent_failure demoPostEnv 0 1 2 10 [0, 1] [2] 2 1 demoPostView
    rfl rfl rfl (by decide)

/-- C9: per-post failure is not isolated: if any single listed post's
fetch rejects, `getAllPosts` rejects as a whole and returns no posts at
all, regardless of how many tribe listings succeeded. -/
theorem getAllPosts_aborts_on_child_failure (env : PostEnv) (tribeIds : List Nat)
    (limit badId : Nat)
    (hmem : badId ∈ collectPostIds env tribeIds limit)
    (hfail : env.posts badId = Except.error ()) :
    getAllPosts env tribeIds limit = Except.error () := by
  have hbad : getPost env badId = Except.error () := by
    simp [getPost, hfail]
  have hall := mapM_error_of_mem (collectPostIds env tribeIds limit)
    (getPost env) badId hmem hbad
  simp only [getAllPosts]
  rw [hall]

/-- Witness for C9: tribe 0's listing succeeds with posts 0 and 1, and
post 0 is fetchable, but the fetch of post 1 rejects: the whole call
rejects. -/
theorem getAllPosts_aborts_on_child_failure_witness :
    getAllPosts badPostEnv [0] 10 = Except.error () :=
  getAllPosts_aborts_on_child_failure badPostEnv [0] 10 1 (by decide) rfl

/-- C6: a post stored with the blob `createTextPost` serializes decodes
back, via `getPost`, to metadata equal field-for-field to the serialized
object; a corrupt stored blob decodes to the placeholder metadata
instead of propagating the decode failure. -/
theorem getPost_metadata_roundtrip (env : PostEnv) (pid : Nat) (d : RawPost)
    (M : PostMetadata) (s title content : String) (t : Nat)
    (hfetch : env.posts pid = Except.ok d) :
    getPost env pid = Except.ok (reconcilePost pid d env.now) ∧
      (d.metadata = Blob.wellFormed M → (reconcilePost pid d env.now).metadata = M) ∧
      (d.metadata = createTextPost title content t →
        (reconcilePost pid d env.now).metadata = createTextPostMetadata title content t) ∧
      (d.metadata = Blob.corrupt s →
        (reconcilePost pid d env.now).metadata.title = "Error" ∧
          (reconcilePost pid d env.now).metadata.content = "Could not parse post metadata" ∧
          (reconcilePost pid d env.now).metadata.type = PostType.text) := by
  refine ⟨by simp [getPost, hfetch], ?_, ?_, ?_⟩
  · intro h
    simp [reconcilePost, parsePostMetadata, h]
  · intro h
    simp [reconcilePost, parsePostMetadata, h, createTextPost]
  · intro h
    simp [reconcilePost, parsePostMetadata, h]

/-- Witness for C6: in the round-trip environment, post 0 decodes back
to exactly the metadata `createTextPost` serialized, and post 1 (corrupt
blob) decodes to the placeholder. -/
theorem getPost_metadata_roundtrip_witness :
    (reconcilePost 0 rtGoodRaw 42).metadata = createTextPostMetadata "Hello" "World" 1000 ∧
      getPost roundtripPostEnv 0 = Except.ok (reconcilePost 0 rtGoodRaw 42) ∧
      (reconcilePost 1 rtBadRaw 42).metadata.title = "Error" ∧
      (reconcilePost 1 rtBadRaw 42).metadata.content = "Could not parse post metadata" ∧
      getPost roundtripPostEnv 1 = Except.ok (reconcilePost 1 rtBadRaw 42) := by
  have hg := getPost_metadata_roundtrip roundtripPostEnv 0 rtGoodRaw
    (createTextPostMetadata "Hello" "World" 1000) "" "Hello" "World" 1000 rfl
  have hb := getPost_metadata_roundtrip roundtripPostEnv 1 rtBadRaw
    (createTextPostMetadata "" "" 0) "not json" "" "" 0 rfl
  exact ⟨hg.2.2.1 rfl, hg.1, (hb.2.2.2 rfl).1, (hb.2.2.2 rfl).2.1, hb.1⟩

/-- C8 (amended): the single-entity and scanning reads are fail-soft
(null, false, zero or empty on a transport error), but `getAllTribes`
and `getPost` re-throw transport errors to the caller. -/
theorem read_path_error_propagation :
    (∀ (store : EventStore) (i : Nat), store i = Except.error () →
      getEvent store i = none) ∧
    (∀ (store : EventStore) (i : Nat), store i = Except.error () →
      eventExists store i = false) ∧
    (∀ b : Except Unit Nat, b = Except.error () → getTicketBalance b = 0) ∧
    (∀ (store : EventStore) (maxEvents : Nat),
      (∀ i, store i = Except.error ()) → getAllEvents store maxEvents = []) ∧
    (∀ (env : TribeEnv) (i : Nat), env.tribeDetails i = Except.error () →
      getTribeDetails env i = none) ∧
    (∀ env : TribeEnv, env.nextTribeId = Except.error () →
      getAllTribes env = Except.error ()) ∧
    (∀ (env : PostEnv) (pid : Nat), env.posts pid = Except.error () →
      getPost env pid = Except.error ()) := by
  refine ⟨?_, ?_, ?_, ?_, ?_, ?_, ?_⟩
  · intro store i h
    simp [getEvent, h]
  · intro store i h
    simp [eventExists, getEvent, h]
  · intro b h
    simp [getTicketBalance, h]
  · intro store maxEvents h
    exact getAllEventsAux_all_error store h maxEvents 0
  · intro env i h
    simp [getTribeDetails, h]
  · intro env h
    simp [getAllTribes, getNextTribeId, h]
  · intro env pid h
    simp [getPost, h]

/-- Witness for C8 (amended), on the all-error environments. -/
theorem read_path_error_propagation_witness :
    getEvent allErrStore 0 = none ∧ eventExists allErrStore 0 = false ∧
      getTicketBalance (Except.error ()) = 0 ∧ getAllEvents allErrStore 20 = [] ∧
      getTribeDetails failTribeEnv 0 = none ∧
      getAllTribes failTribeEnv = Except.error () ∧
      getPost failPostEnv 0 = Except.error () := by
  have h := read_path_error_propagation
  exact ⟨h.1 allErrStore 0 rfl, h.2.1 allErrStore 0 rfl, h.2.2.1 _ rfl,
    h.2.2.2.1 allErrStore 20 (fun i => rfl), h.2.2.2.2.1 failTribeEnv 0 rfl,
    h.2.2.2.2.2.1 failTribeEnv rfl, h.2.2.2.2.2.2 failPostEnv 0 rfl⟩

/-- C8 counterexample: on a transport error, `getAllTribes` and `getPost`
do not return a fail-soft value: they re-throw, propagating the error to
the caller. -/
theorem getAllTribes_getPost_propagate :
    getAllTribes failTribeEnv = Except.error () ∧
      getPost failPostEnv 0 = Except.error () :=
  ⟨rfl, rfl⟩

/-- C10: the token-id probe of `getProfileByAddress` inspects only token
ids 0 through 9: an address whose NFT balance is positive but whose
profile token id is 10 or greater (no probed id matching it) reads back
as having no profile. -/
theorem getProfileByAddress_scan_bound (env : ProfileEnv) (address owner : String)
    (b t : Nat)
    (hbal : env.balanceOf address = Except.ok b) (hb : 0 < b)
    (hmiss : ∀ i, i < 10 → ownerMatches env address i = false)
    (hown : env.ownerOf t = Except.ok owner)
    (hmatch : owner.toLower = address.toLower)
    (ht : 10 ≤ t) :
    getProfileByAddress env address = none := by
  unfold getProfileByAddress
  rw [hbal]
  have hb0 : ¬(b = 0) := by omega
  have hfind : (List.range 10).find? (ownerMatches env address) = none := by
    apply List.find?_eq_none.mpr
    intro i hi
    simp [hmiss i (List.mem_range.mp hi)]
  simp [hb0, hfind]

/-- Witness for C10: the address owns exactly the profile NFT with token
id 12, its balance is 1, yet `getProfileByAddress` reports no profile. -/
theorem getProfileByAddress_scan_bound_witness :
    getProfileByAddress demoProfileEnv "0xabc" = none :=
  getProfileByAddress_scan_bound demoProfileEnv "0xabc" "0xabc" 1 12
    rfl (by decide) (by decide) rfl rfl (by decide)

end Tribes
